import Mathlib

/-
Verification of the CMAC MAC provider (providers/common/macs/cmac_prov.c):
context lifecycle, cipher staging and binding, parameter protocol, reference
counting and duplication.  The provider functions are embedded directly from
the C source; the collaborators it calls (the CMAC primitive from
crypto/cmac, the EVP cipher registry, the ENGINE registry) are not part of
the sources here and are modelled from the specification.
-/

/-- A cipher descriptor: an identity (used for reference counting) and the
declared block size.  Models the EVP_CIPHER handle. -/
structure EVP_CIPHER where
  id : Nat
  block_size : Nat
deriving DecidableEq, Repr

/-- Modelled from the spec: the CBC-MAC computation state of the CMAC
primitive (crypto/cmac, not under the sources here) — the cipher bound into
the internal cipher context, the bound key (none while uninitialised), the
absorbed message bytes, and the terminal finalized flag ("final ... is
terminal for that context instance"). -/
structure CMAC_CTX where
  cipher : Option EVP_CIPHER
  key : Option (List Nat)
  msg : List Nat
  finalized : Bool
deriving DecidableEq, Repr

/-- Modelled from the spec: a fresh, unbound CMAC computation state
(CMAC_CTX_new). -/
def CMAC_CTX_new : CMAC_CTX :=
  { cipher := none, key := none, msg := [], finalized := false }

/-- Modelled from the spec: the deterministic MAC output of the CBC-MAC
primitive's drain step — an unspecified deterministic function of the bound
cipher, key and absorbed message, producing exactly block_size bytes. -/
def macBytes (c : EVP_CIPHER) (key msg : List Nat) : List Nat :=
  let seed := (key ++ msg).foldl (fun acc b => (acc * 131 + b + 7) % 256) (c.id % 256)
  (List.range c.block_size).map (fun i => (seed + 53 * i + msg.length + key.length) % 256)

/-- Modelled from the spec: the CBC-MAC primitive's bind step
(`bind(cipher, engine, key, keyLen) -> ComputationState | Error`, OpenSSL
CMAC_Init, not under the sources here).  A call with neither key nor cipher
is a restart, which fails on a never-keyed state ("init fails if no cipher
has been staged — returns a configuration error, not a silent no-op");
supplying a cipher (re)binds it into the state; supplying a key completes
initialisation and fails when no cipher is available. -/
def CMAC_Init (ctx : CMAC_CTX) (key : Option (List Nat)) (cipher : Option EVP_CIPHER) :
    Option CMAC_CTX :=
  if key = none ∧ cipher = none then
    if ctx.key = none then none
    else some { ctx with msg := [], finalized := false }
  else
    let ctx1 := match cipher with
      | some c => { ctx with cipher := some c }
      | none => ctx
    match key with
    | none => some ctx1
    | some k =>
      match ctx1.cipher with
      | none => none
      | some _ => some { ctx1 with key := some k, msg := [], finalized := false }

/-- Modelled from the spec: the CBC-MAC primitive's absorb step (OpenSSL
CMAC_Update, not under the sources here): valid only after a key has been
bound and before finalization; appends the bytes to the accumulator. -/
def CMAC_Update (ctx : CMAC_CTX) (data : List Nat) : Option CMAC_CTX :=
  if ctx.key = none then none
  else if ctx.finalized then none
  else some { ctx with msg := ctx.msg ++ data }

/-- Modelled from the spec: the CBC-MAC primitive's drain step (OpenSSL
CMAC_Final, not under the sources here): fails unless a cipher and key are
bound and the state is not yet finalized; produces the block_size-byte MAC
and marks the state terminal. -/
def CMAC_Final (ctx : CMAC_CTX) : Option (List Nat × CMAC_CTX) :=
  match ctx.cipher, ctx.key with
  | some c, some k =>
    if ctx.finalized then none
    else some (macBytes c k ctx.msg, { ctx with finalized := true })
  | _, _ => none

/-- Modelled from the spec: the CBC-MAC primitive's state copy
(`copy(state) -> state`, OpenSSL CMAC_CTX_copy, not under the sources
here): a value-independent deep copy of the computation state. -/
def CMAC_CTX_copy (src : CMAC_CTX) : Option CMAC_CTX :=
  some src

/-- Modelled from the spec: the cipher context held inside the CMAC state —
CMAC_CTX_get0_cipher_ctx exposes the cipher bound into the computation
state (and nothing about a merely staged cipher). -/
def CMAC_CTX_get0_cipher_ctx (ctx : CMAC_CTX) : Option EVP_CIPHER :=
  ctx.cipher

/-- Modelled from the spec: EVP_CIPHER_CTX_block_size on the cipher context;
an unbound cipher context has no cipher, in which case the query yields 0
(in the C source the cipher pointer is simply not set). -/
def EVP_CIPHER_CTX_block_size (c : Option EVP_CIPHER) : Nat :=
  match c with
  | some c => c.block_size
  | none => 0

/-- The outside world the provider manipulates: the cipher registry
(property-query fetch and legacy name table), the engine registry, and the
reference counts of cipher descriptors and engines.  Registries are
modelled from the spec's collaborator interfaces (§6); reference counts are
tracked per cipher id / engine id. -/
structure World where
  fetchReg : String → Option String → Option EVP_CIPHER
  legacyReg : String → Option EVP_CIPHER
  engineReg : String → Option Nat
  cipherRefs : Nat → Nat
  engineRefs : Nat → Nat

/-- Modelled from the spec: EVP_CIPHER_fetch — resolve a cipher by name and
property query through the registry, taking a fresh reference on success. -/
def EVP_CIPHER_fetch (w : World) (algoname : String) (propquery : Option String) :
    Option EVP_CIPHER × World :=
  match w.fetchReg algoname propquery with
  | none => (none, w)
  | some c =>
    (some c,
     { w with cipherRefs := fun j => if j = c.id then w.cipherRefs j + 1 else w.cipherRefs j })

/-- Modelled from the spec: EVP_get_cipherbyname — legacy name-only lookup
in a static table; no reference is taken. -/
def EVP_get_cipherbyname (w : World) (algoname : String) : Option EVP_CIPHER :=
  w.legacyReg algoname

/-- Modelled from the spec: EVP_CIPHER_up_ref — increment the reference
count of a fetched cipher. -/
def EVP_CIPHER_up_ref (w : World) (c : EVP_CIPHER) : World :=
  { w with cipherRefs := fun j => if j = c.id then w.cipherRefs j + 1 else w.cipherRefs j }

/-- Modelled from the spec: EVP_CIPHER_meth_free — release a fetched cipher
reference (decrement its count); a null argument is a no-op. -/
def EVP_CIPHER_meth_free (w : World) (c : Option EVP_CIPHER) : World :=
  match c with
  | none => w
  | some c =>
    { w with cipherRefs := fun j => if j = c.id then w.cipherRefs j - 1 else w.cipherRefs j }

/-- Modelled from the spec: ENGINE_by_id — resolve an engine by id through
the engine registry, taking a reference on success. -/
def ENGINE_by_id (w : World) (eid : String) : Option Nat × World :=
  match w.engineReg eid with
  | none => (none, w)
  | some e =>
    (some e,
     { w with engineRefs := fun j => if j = e then w.engineRefs j + 1 else w.engineRefs j })

/-- Modelled from the spec: ENGINE_finish — release an engine reference;
a null argument is a no-op. -/
def ENGINE_finish (w : World) (e : Option Nat) : World :=
  match e with
  | none => w
  | some e =>
    { w with engineRefs := fun j => if j = e then w.engineRefs j - 1 else w.engineRefs j }

/-- The provider's per-context data, embedded from struct cmac_data_st:
the CMAC computation state, the cached staged cipher (tmpcipher), the
explicitly fetched owned cipher (alloc_cipher) and the staged legacy engine
(tmpengine). -/
structure cmac_data_st where
  provctx : Nat
  ctx : CMAC_CTX
  tmpcipher : Option EVP_CIPHER
  alloc_cipher : Option EVP_CIPHER
  tmpengine : Option Nat
deriving DecidableEq, Repr

/-- Embedded from cmac_new: allocate a zeroed context holding a fresh CMAC
state.  The two C allocation points (OPENSSL_zalloc and CMAC_CTX_new) are
collapsed into one allocation oracle; on failure the function returns null. -/
def cmac_new (allocOk : Bool) (provctx : Nat) : Option cmac_data_st :=
  if allocOk then
    some { provctx := provctx, ctx := CMAC_CTX_new,
           tmpcipher := none, alloc_cipher := none, tmpengine := none }
  else
    none

/-- Embedded from cmac_free: releases the CMAC state and the owned fetched
cipher via EVP_CIPHER_meth_free, then frees the structure.  Note the C
source releases nothing else — in particular it never calls ENGINE_finish
on tmpengine. -/
def cmac_free (w : World) (m : Option cmac_data_st) : World :=
  match m with
  | none => w
  | some macctx => EVP_CIPHER_meth_free w macctx.alloc_cipher

/-- Outcome of cmac_dup: a constructed copy, an error return (after the
partial destination was released), or a null-pointer dereference — the C
source uses the result of cmac_new without checking it for null before
passing dst->ctx to CMAC_CTX_copy. -/
inductive DupResult where
  | ok (w : World) (dst : cmac_data_st)
  | err (w : World)
  | nullDeref

/-- Embedded from cmac_dup: allocate a fresh context with cmac_new (no null
check in the source — an allocation failure leads straight to a dereference
of the null destination), deep-copy the CMAC state, take a reference on the
owned fetched cipher when there is one (releasing the partial destination
if that fails), and copy the staged engine/cipher fields. -/
def cmac_dup (w : World) (allocOk upRefOk : Bool) (src : cmac_data_st) : DupResult :=
  match cmac_new allocOk src.provctx with
  | none => DupResult.nullDeref
  | some dst0 =>
    match CMAC_CTX_copy src.ctx with
    | none => DupResult.err (cmac_free w (some dst0))
    | some copied =>
      let dst1 := { dst0 with ctx := copied }
      match src.alloc_cipher with
      | some c =>
        if upRefOk then
          DupResult.ok (EVP_CIPHER_up_ref w c)
            { dst1 with tmpengine := src.tmpengine, tmpcipher := src.tmpcipher,
                        alloc_cipher := src.alloc_cipher }
        else
          DupResult.err (cmac_free w (some dst1))
      | none =>
        DupResult.ok w
          { dst1 with tmpengine := src.tmpengine, tmpcipher := src.tmpcipher,
                      alloc_cipher := src.alloc_cipher }

/-- Embedded from cmac_size: the block size of the cipher context inside
the CMAC computation state — not of the staged tmpcipher. -/
def cmac_size (m : cmac_data_st) : Nat :=
  EVP_CIPHER_CTX_block_size (CMAC_CTX_get0_cipher_ctx m.ctx)

/-- Embedded from cmac_init: call CMAC_Init with no key and the staged
cipher and engine, then clear the staged fields unconditionally (they are
cleared whether or not CMAC_Init succeeded), returning CMAC_Init's verdict. -/
def cmac_init (m : cmac_data_st) : Bool × cmac_data_st :=
  match CMAC_Init m.ctx none m.tmpcipher with
  | some c => (true, { m with ctx := c, tmpcipher := none, tmpengine := none })
  | none => (false, { m with tmpcipher := none, tmpengine := none })

/-- Embedded from cmac_update: delegate to CMAC_Update. -/
def cmac_update (m : cmac_data_st) (data : List Nat) : Bool × cmac_data_st :=
  match CMAC_Update m.ctx data with
  | some c => (true, { m with ctx := c })
  | none => (false, m)

/-- Embedded from cmac_final: delegate to CMAC_Final.  The outsize argument
(the caller's buffer capacity) is received but never used by the source —
no capacity check is performed before the MAC bytes are produced. -/
def cmac_final (m : cmac_data_st) (outsize : Nat) : Option (List Nat × cmac_data_st) :=
  match CMAC_Final m.ctx with
  | some (out, c) => some (out, { m with ctx := c })
  | none => none

/-- Embedded from cmac_get_ctx_params: when the size parameter is located
in the request, it is set to cmac_size; otherwise nothing is written and
the call succeeds. -/
def cmac_get_ctx_params (m : cmac_data_st) (sizeRequested : Bool) : Bool × Option Nat :=
  if sizeRequested then (true, some (cmac_size m)) else (true, none)

/-- A located parameter value with its declared type, as checked by the
data_type tests in cmac_set_ctx_params. -/
inductive ParamData where
  | utf8 (s : String)
  | octet (bytes : List Nat)
deriving DecidableEq, Repr

/-- The parameters a cmac_set_ctx_params call may carry, one optional slot
per settable name (cipher, engine, properties, key). -/
structure SetParams where
  cipher : Option ParamData
  engine : Option ParamData
  properties : Option ParamData
  key : Option ParamData
deriving DecidableEq, Repr

/-- Embedded from the cipher block of cmac_set_ctx_params (the body of the
`if cipher param located` statement): type-check the cipher name; outside
restricted (FIPS / no-engine) builds release and clear the staged engine
and resolve a requested engine id (failure is a hard failure, with the old
engine already cleared); type-check the optional property query; release
the previously owned fetched cipher; fetch the replacement (storing it as
both tmpcipher and alloc_cipher); outside restricted builds fall back to
the legacy name table; fail if no cipher was resolved. -/
def cmac_set_cipher_part (restricted : Bool) (w : World) (m : cmac_data_st)
    (p : SetParams) : Bool × World × cmac_data_st :=
  match p.cipher with
  | none => (true, w, m)
  | some (ParamData.octet _) => (false, w, m)
  | some (ParamData.utf8 algoname) =>
    let step1 : Bool × World × cmac_data_st :=
      if restricted then (true, w, m)
      else
        let w0 := ENGINE_finish w m.tmpengine
        let m0 := { m with tmpengine := none }
        match p.engine with
        | none => (true, w0, m0)
        | some (ParamData.octet _) => (false, w0, m0)
        | some (ParamData.utf8 eid) =>
          match ENGINE_by_id w0 eid with
          | (none, w1) => (false, w1, m0)
          | (some e, w1) => (true, w1, { m0 with tmpengine := some e })
    match step1 with
    | (false, w1, m1) => (false, w1, m1)
    | (true, w1, m1) =>
      match p.properties with
      | some (ParamData.octet _) => (false, w1, m1)
      | other =>
        let propquery : Option String :=
          match other with
          | some (ParamData.utf8 s) => some s
          | _ => none
        let w2 := EVP_CIPHER_meth_free w1 m1.alloc_cipher
        match EVP_CIPHER_fetch w2 algoname propquery with
        | (fetched, w3) =>
          let m2 := { m1 with tmpcipher := fetched, alloc_cipher := fetched }
          let m3 :=
            if restricted = false ∧ m2.tmpcipher = none then
              { m2 with tmpcipher := EVP_get_cipherbyname w3 algoname }
            else m2
          if m3.tmpcipher = none then (false, w3, m3) else (true, w3, m3)

/-- Embedded from the key block of cmac_set_ctx_params: type-check the key,
bind it together with the staged cipher and engine via CMAC_Init, and only
on success clear the staged fields. -/
def cmac_set_key_part (m : cmac_data_st) (p : SetParams) : Bool × cmac_data_st :=
  match p.key with
  | none => (true, m)
  | some (ParamData.utf8 _) => (false, m)
  | some (ParamData.octet k) =>
    match CMAC_Init m.ctx (some k) m.tmpcipher with
    | none => (false, m)
    | some c => (true, { m with ctx := c, tmpcipher := none, tmpengine := none })

/-- Embedded from cmac_set_ctx_params: process the cipher-selection block
(aborting the call on its failure), then the key block. -/
def cmac_set_ctx_params (restricted : Bool) (w : World) (m : cmac_data_st)
    (p : SetParams) : Bool × World × cmac_data_st :=
  match cmac_set_cipher_part restricted w m p with
  | (false, w1, m1) => (false, w1, m1)
  | (true, w1, m1) =>
    match cmac_set_key_part m1 p with
    | (ok2, m2) => (ok2, w1, m2)

/-
Concrete values used by counterexamples and witnesses.
-/

/-- The cipher name used in the concrete scenarios. -/
def aesName : String := "AES-128-CBC"

/-- A concrete cipher descriptor with the AES block size. -/
def aes128 : EVP_CIPHER := { id := 1, block_size := 16 }

/-- A 16-byte all-zero key. -/
def zeroKey : List Nat := List.replicate 16 0

/-- A concrete world: the fetch registry resolves the AES name, the legacy
table and engine registry are empty, every reference count starts at 1. -/
def demoWorld : World :=
  { fetchReg := fun n _ => if n = aesName then some aes128 else none,
    legacyReg := fun _ => none,
    engineReg := fun _ => none,
    cipherRefs := fun _ => 1,
    engineRefs := fun _ => 1 }

/-- A freshly allocated context. -/
def demoFresh : cmac_data_st :=
  { provctx := 0, ctx := CMAC_CTX_new,
    tmpcipher := none, alloc_cipher := none, tmpengine := none }

/-- A set-parameters call carrying only the cipher name. -/
def cipherOnlyParams : SetParams :=
  { cipher := some (ParamData.utf8 aesName), engine := none,
    properties := none, key := none }

/-- A set-parameters call carrying the cipher name and the zero key. -/
def cipherKeyParams : SetParams :=
  { cipher := some (ParamData.utf8 aesName), engine := none,
    properties := none, key := some (ParamData.octet zeroKey) }

/-- Result of staging the AES cipher on a fresh context (no key). -/
def demoStagedResult : Bool × World × cmac_data_st :=
  cmac_set_ctx_params false demoWorld demoFresh cipherOnlyParams

/-- The context with the AES cipher staged but no key bound. -/
def demoStaged : cmac_data_st := demoStagedResult.2.2

/-- Result of selecting the AES cipher and binding the zero key on a fresh
context. -/
def demoSetResult : Bool × World × cmac_data_st :=
  cmac_set_ctx_params false demoWorld demoFresh cipherKeyParams

/-- The bound context: AES cipher and zero key bound, nothing absorbed. -/
def demoBound : cmac_data_st := demoSetResult.2.2

/-- The MAC bytes the bound demo context produces. -/
def demoMacOut : List Nat := (cmac_final demoBound 16).elim [] Prod.fst

/-- The demo context after a successful final. -/
def demoAfterFinal : cmac_data_st := (cmac_final demoBound 16).elim demoBound Prod.snd

/-- A context holding an owned fetched cipher and a staged engine, as left
by a cipher-set call that staged an engine and was never followed by init. -/
def demoOwned : cmac_data_st :=
  { demoFresh with alloc_cipher := some aes128, tmpengine := some 7 }

/-- The engine id used in the concrete engine-resolving scenario. -/
def engName : String := "eng1"

/-- The demo world extended with one resolvable engine id. -/
def demoEngineWorld : World :=
  { demoWorld with engineReg := fun s => if s = engName then some 7 else none }

/-- A set-parameters call carrying the cipher name and a resolvable engine
id. -/
def cipherEngineParams : SetParams :=
  { cipher := some (ParamData.utf8 aesName), engine := some (ParamData.utf8 engName),
    properties := none, key := none }

/-- C1, counterexample: on a bound context whose output size is 16, a final
call with buffer capacity 15 does not fail with BufferTooSmall — it
succeeds and produces the full 16 MAC bytes, because cmac_final never
examines the capacity argument. -/
theorem cmac_final_short_buffer_not_rejected :
    demoSetResult.1 = true ∧
    cmac_size demoBound = 16 ∧
    cmac_final demoBound 15 = some (demoMacOut, demoAfterFinal) ∧
    demoMacOut.length = 16 := by
  decide

/-- C1 (amended): cmac_final ignores the buffer-capacity argument — any two
capacities give the identical result — and on a bound, unfinalized context
it succeeds for every capacity (including capacities below the output
size), producing exactly block-size many bytes; capacity enforcement is
left to the caller. -/
theorem cmac_final_capacity_independent (m : cmac_data_st) (c : EVP_CIPHER)
    (k : List Nat) (hcip : m.ctx.cipher = some c) (hkey : m.ctx.key = some k)
    (hfin : m.ctx.finalized = false) :
    (∀ a b : Nat, cmac_final m a = cmac_final m b) ∧
    (∀ cap : Nat, ∃ out m2, cmac_final m cap = some (out, m2) ∧
      out.length = c.block_size) := by
  constructor
  · intro a b
    rfl
  · intro cap
    refine ⟨macBytes c k m.ctx.msg, { m with ctx := { m.ctx with finalized := true } }, ?_, ?_⟩
    · simp [cmac_final, CMAC_Final, hcip, hkey, hfin]
    · simp [macBytes]

/-- C1 witness: the amended statement applied to the concrete bound demo
context. -/
theorem cmac_final_capacity_independent_witness :
    (∀ a b : Nat, cmac_final demoBound a = cmac_final demoBound b) ∧
    (∀ cap : Nat, ∃ out m2, cmac_final demoBound cap = some (out, m2) ∧
      out.length = aes128.block_size) :=
  cmac_final_capacity_independent demoBound aes128 zeroKey (by decide) (by decide) (by decide)

/-- C3, counterexample: after successfully selecting (staging) the AES
cipher whose declared block size is 16 — with no key bound yet — cmac_size
returns 0, not 16: the size query reads the cipher bound into the CMAC
computation state, never the staged tmpcipher. -/
theorem cmac_size_staged_cipher_not_block_size :
    demoStagedResult.1 = true ∧
    demoStaged.tmpcipher = some aes128 ∧
    aes128.block_size = 16 ∧
    cmac_size demoStaged = 0 := by
  decide

/-- C3 (amended): once the cipher has been bound into the computation state
(for instance by init consuming the staged cipher), the size query and the
gettable size parameter return exactly that cipher's declared block size;
in general any context whose computation state has a bound cipher reports
that cipher's block size. -/
theorem cmac_size_after_binding (m : cmac_data_st) (c : EVP_CIPHER)
    (hstage : m.tmpcipher = some c) :
    (cmac_init m).1 = true ∧
    cmac_size (cmac_init m).2 = c.block_size ∧
    cmac_get_ctx_params (cmac_init m).2 true = (true, some c.block_size) ∧
    (∀ m2 : cmac_data_st, m2.ctx.cipher = some c → cmac_size m2 = c.block_size) := by
  refine ⟨?_, ?_, ?_, ?_⟩
  · simp [cmac_init, CMAC_Init, hstage]
  · simp [cmac_init, CMAC_Init, hstage, cmac_size, CMAC_CTX_get0_cipher_ctx,
          EVP_CIPHER_CTX_block_size]
  · simp [cmac_init, CMAC_Init, hstage, cmac_get_ctx_params, cmac_size,
          CMAC_CTX_get0_cipher_ctx, EVP_CIPHER_CTX_block_size]
  · intro m2 h2
    simp [cmac_size, CMAC_CTX_get0_cipher_ctx, EVP_CIPHER_CTX_block_size, h2]

/-- C3 witness: the amended statement applied to the concrete staged demo
context. -/
theorem cmac_size_after_binding_witness :
    (cmac_init demoStaged).1 = true ∧
    cmac_size (cmac_init demoStaged).2 = aes128.block_size ∧
    cmac_get_ctx_params (cmac_init demoStaged).2 true = (true, some aes128.block_size) ∧
    (∀ m2 : cmac_data_st, m2.ctx.cipher = some aes128 → cmac_size m2 = aes128.block_size) :=
  cmac_size_after_binding demoStaged aes128 (by decide)

/-- C5: update on a context whose computation state has no bound key fails
and leaves the context unchanged, and once final has succeeded a second
final on the resulting context fails. -/
theorem cmac_update_unbound_and_double_final_fail :
    (∀ (m : cmac_data_st) (data : List Nat), m.ctx.key = none →
      cmac_update m data = (false, m)) ∧
    (∀ (m : cmac_data_st) (n n2 : Nat) (out : List Nat) (m2 : cmac_data_st),
      cmac_final m n = some (out, m2) → cmac_final m2 n2 = none) := by
  constructor
  · intro m data hk
    simp [cmac_update, CMAC_Update, hk]
  · intro m n n2 out m2 h
    rcases hc : m.ctx.cipher with _ | c
    · simp [cmac_final, CMAC_Final, hc] at h
    rcases hk : m.ctx.key with _ | k
    · simp [cmac_final, CMAC_Final, hc, hk] at h
    cases hf : m.ctx.finalized
    · simp [cmac_final, CMAC_Final, hc, hk, hf] at h
      obtain ⟨h1, h2⟩ := h
      subst h2
      simp [cmac_final, CMAC_Final, hc, hk]
    · simp [cmac_final, CMAC_Final, hc, hk, hf] at h

/-- C5 witness: update on a fresh context fails, and a second final on the
finalized demo context fails. -/
theorem cmac_update_unbound_and_double_final_fail_witness :
    cmac_update demoFresh [1, 2] = (false, demoFresh) ∧
    cmac_final demoAfterFinal 16 = none :=
  ⟨cmac_update_unbound_and_double_final_fail.1 demoFresh [1, 2] (by decide),
   cmac_update_unbound_and_double_final_fail.2 demoBound 16 16 demoMacOut demoAfterFinal
     (by decide)⟩

/-- C7: on a freshly allocated context (no cipher ever staged or bound),
cmac_init reports failure — the restart form of CMAC_Init rejects a
never-initialised state — rather than succeeding as a no-op. -/
theorem cmac_init_on_fresh_context_fails (pv : Nat) (m : cmac_data_st)
    (h : cmac_new true pv = some m) : (cmac_init m).1 = false := by
  simp [cmac_new] at h
  subst h
  simp [cmac_init, CMAC_Init, CMAC_CTX_new]

/-- C7 witness: the statement applied to the concrete fresh context. -/
theorem cmac_init_on_fresh_context_fails_witness :
    (cmac_init demoFresh).1 = false :=
  cmac_init_on_fresh_context_fails 0 demoFresh (by decide)

/-- C9: cmac_free decrements the owned fetched cipher's reference count but
leaves every engine reference count untouched — the source never calls
ENGINE_finish on the staged engine, so the engine reference held by the
context is leaked, contrary to the specified lifecycle. -/
theorem cmac_free_releases_cipher_but_not_engine (w : World) (m : cmac_data_st)
    (c : EVP_CIPHER) (e : Nat)
    (hc : m.alloc_cipher = some c) (he : m.tmpengine = some e) :
    (cmac_free w (some m)).cipherRefs c.id = w.cipherRefs c.id - 1 ∧
    (cmac_free w (some m)).engineRefs = w.engineRefs := by
  constructor
  · simp [cmac_free, EVP_CIPHER_meth_free, hc]
  · simp [cmac_free, EVP_CIPHER_meth_free, hc]

/-- C9 witness: freeing the concrete context that owns the fetched AES
cipher and still stages engine 7 decrements the cipher count and leaves the
engine counts unchanged. -/
theorem cmac_free_releases_cipher_but_not_engine_witness :
    (cmac_free demoWorld (some demoOwned)).cipherRefs aes128.id
      = demoWorld.cipherRefs aes128.id - 1 ∧
    (cmac_free demoWorld (some demoOwned)).engineRefs = demoWorld.engineRefs :=
  cmac_free_releases_cipher_but_not_engine demoWorld demoOwned aes128 7 rfl rfl

/-- C10: when allocation of the destination context fails, cmac_dup does
not return an error — the source passes dst->ctx to CMAC_CTX_copy without
any null check, so the call dereferences the null destination. -/
theorem cmac_dup_alloc_failure_null_deref (w : World) (b : Bool) (src : cmac_data_st) :
    cmac_dup w false b src = DupResult.nullDeref := by
  rfl

/-- C2: duplicating a context that owns a fetched cipher succeeds, copies
the computation state by value together with the staged fields, shares the
same cipher descriptor by incrementing exactly its reference count (no
other count changes, no fresh fetch), and the copy behaves identically to
the source from then on. -/
theorem cmac_dup_shares_cipher_and_copies_state (w : World) (src : cmac_data_st)
    (c : EVP_CIPHER) (hc : src.alloc_cipher = some c) :
    ∃ w2 dst, cmac_dup w true true src = DupResult.ok w2 dst ∧
      dst.ctx = src.ctx ∧
      dst.tmpcipher = src.tmpcipher ∧
      dst.tmpengine = src.tmpengine ∧
      dst.alloc_cipher = some c ∧
      w2.cipherRefs c.id = w.cipherRefs c.id + 1 ∧
      (∀ j : Nat, j ≠ c.id → w2.cipherRefs j = w.cipherRefs j) ∧
      (∀ (data : List Nat) (outsz : Nat),
        cmac_final ((cmac_update dst data).2) outsz
          = cmac_final ((cmac_update src data).2) outsz) := by
  rcases src with ⟨pv, sctx, stmp, salloc, seng⟩
  simp only at hc
  subst hc
  refine ⟨EVP_CIPHER_up_ref w c,
    { provctx := pv, ctx := sctx, tmpcipher := stmp,
      alloc_cipher := some c, tmpengine := seng },
    rfl, rfl, rfl, rfl, rfl, ?_, ?_, ?_⟩
  · simp [EVP_CIPHER_up_ref]
  · intro j hj
    simp [EVP_CIPHER_up_ref, hj]
  · intro data outsz
    rfl

/-- C2 witness: the statement applied to the concrete context owning the
fetched AES cipher. -/
theorem cmac_dup_shares_cipher_and_copies_state_witness :
    ∃ w2 dst, cmac_dup demoWorld true true demoOwned = DupResult.ok w2 dst ∧
      dst.ctx = demoOwned.ctx ∧
      dst.tmpcipher = demoOwned.tmpcipher ∧
      dst.tmpengine = demoOwned.tmpengine ∧
      dst.alloc_cipher = some aes128 ∧
      w2.cipherRefs aes128.id = demoWorld.cipherRefs aes128.id + 1 ∧
      (∀ j : Nat, j ≠ aes128.id → w2.cipherRefs j = demoWorld.cipherRefs j) ∧
      (∀ (data : List Nat) (outsz : Nat),
        cmac_final ((cmac_update dst data).2) outsz
          = cmac_final ((cmac_update demoOwned data).2) outsz) :=
  cmac_dup_shares_cipher_and_copies_state demoWorld demoOwned aes128 rfl

/-- C4: the staged cipher and engine fields are both cleared after binding,
on either path — cmac_init clears them unconditionally, and a successful
set-parameters call that carried a key leaves them cleared. -/
theorem cmac_staging_cleared_after_binding :
    (∀ m : cmac_data_st,
      (cmac_init m).2.tmpcipher = none ∧ (cmac_init m).2.tmpengine = none) ∧
    (∀ (r : Bool) (w : World) (m : cmac_data_st) (p : SetParams) (w2 : World)
      (m2 : cmac_data_st), p.key ≠ none →
      cmac_set_ctx_params r w m p = (true, w2, m2) →
      m2.tmpcipher = none ∧ m2.tmpengine = none) := by
  constructor
  · intro m
    cases h : CMAC_Init m.ctx none m.tmpcipher <;> simp [cmac_init, h]
  · intro r w m p w2 m2 hk h
    unfold cmac_set_ctx_params at h
    rcases hcp : cmac_set_cipher_part r w m p with ⟨ok1, w1, m1⟩
    rw [hcp] at h
    cases ok1
    · simp at h
    · dsimp only at h
      rcases hkp : cmac_set_key_part m1 p with ⟨ok2, m2h⟩
      rw [hkp] at h
      dsimp only at h
      simp only [Prod.mk.injEq] at h
      obtain ⟨hok2, _, hm2⟩ := h
      unfold cmac_set_key_part at hkp
      rcases hpk : p.key with _ | pd
      · exact absurd hpk hk
      rcases pd with s | k
      · rw [hpk] at hkp
        simp only [Prod.mk.injEq] at hkp
        rw [← hkp.1] at hok2
        simp at hok2
      · rw [hpk] at hkp
        dsimp only at hkp
        rcases hI : CMAC_Init m1.ctx (some k) m1.tmpcipher with _ | cc
        · rw [hI] at hkp
          simp only [Prod.mk.injEq] at hkp
          rw [← hkp.1] at hok2
          simp at hok2
        · rw [hI] at hkp
          simp only [Prod.mk.injEq] at hkp
          rw [← hkp.2] at hm2
          rw [← hm2]
          exact ⟨rfl, rfl⟩

/-- C4 witness: both clauses at concrete inputs — cmac_init on the staged
demo context, and the successful cipher-plus-key set call on the fresh
context. -/
theorem cmac_staging_cleared_after_binding_witness :
    ((cmac_init demoStaged).2.tmpcipher = none ∧
      (cmac_init demoStaged).2.tmpengine = none) ∧
    (demoBound.tmpcipher = none ∧ demoBound.tmpengine = none) :=
  ⟨cmac_staging_cleared_after_binding.1 demoStaged,
   cmac_staging_cleared_after_binding.2 false demoWorld demoFresh cipherKeyParams
     demoSetResult.2.1 demoBound (by decide) rfl⟩

/-- C6: setting the key on a context with no cipher staged and none bound
fails and changes nothing — neither the world nor the context, so no
computation state is bound. -/
theorem cmac_set_key_without_cipher_fails (r : Bool) (w : World) (m : cmac_data_st)
    (k : List Nat) (p : SetParams)
    (hpc : p.cipher = none) (hpk : p.key = some (ParamData.octet k))
    (hstage : m.tmpcipher = none) (hbound : m.ctx.cipher = none) :
    cmac_set_ctx_params r w m p = (false, w, m) := by
  unfold cmac_set_ctx_params cmac_set_cipher_part cmac_set_key_part CMAC_Init
  simp [hpc, hpk, hstage, hbound]

/-- C6 witness: setting the zero key alone on the fresh context under the
concrete world fails and leaves world and context unchanged. -/
theorem cmac_set_key_without_cipher_fails_witness :
    cmac_set_ctx_params false demoWorld demoFresh
      { cipher := none, engine := none, properties := none,
        key := some (ParamData.octet zeroKey) } = (false, demoWorld, demoFresh) :=
  cmac_set_key_without_cipher_fails false demoWorld demoFresh zeroKey
    { cipher := none, engine := none, properties := none,
      key := some (ParamData.octet zeroKey) } rfl rfl rfl rfl

/-- A cipher-selecting set call that reaches cipher resolution — in
restricted mode (where the engine step is skipped), or with no engine
requested, or with an engine id the registry resolves — behaves exactly as
if the previously owned fetched cipher had been released first: the call on
the original context equals the call on the context with its owned
reference already released and dropped. -/
theorem cmac_set_release_decomposition (r : Bool) (w : World)
    (m : cmac_data_st) (p : SetParams) (algoname : String)
    (hpc : p.cipher = some (ParamData.utf8 algoname))
    (hpp : p.properties = none ∨ ∃ s, p.properties = some (ParamData.utf8 s))
    (hreach : r = true ∨ p.engine = none ∨
      ∃ eid e, p.engine = some (ParamData.utf8 eid) ∧ w.engineReg eid = some e) :
    cmac_set_ctx_params r w m p
      = cmac_set_ctx_params r (EVP_CIPHER_meth_free w m.alloc_cipher)
          { m with alloc_cipher := none } p := by
  rcases m with ⟨pv, mctx, mtmp, malloc, meng⟩
  rcases p with ⟨pc, pe, pp, pk⟩
  dsimp only at hpc hpp hreach
  subst hpc
  rcases hreach with hr | hpe | ⟨eid, e, hpe, hE⟩
  · subst hr
    rcases hpp with hpp | ⟨s, hpp⟩ <;> subst hpp <;>
      cases malloc <;> cases meng <;> rfl
  · subst hpe
    rcases hpp with hpp | ⟨s, hpp⟩ <;> subst hpp <;>
      cases r <;> cases malloc <;> cases meng <;> rfl
  · subst hpe
    rcases w with ⟨fr, lr, er, cr, enr⟩
    dsimp only at hE
    rcases hpp with hpp | ⟨s, hpp⟩ <;> subst hpp <;>
      cases r <;> cases malloc <;> cases meng <;>
        simp only [cmac_set_ctx_params, cmac_set_cipher_part, cmac_set_key_part,
          ENGINE_finish, ENGINE_by_id, EVP_CIPHER_meth_free, EVP_CIPHER_fetch,
          EVP_get_cipherbyname, hE] <;> rfl

/-- C8: a set call that selects a cipher never leaks the previously fetched
owned reference.  First part: every call that reaches cipher resolution (in
restricted mode, with no engine requested, or with an engine the registry
resolves) equals the same call with the owned reference already released —
the release precedes the replacement fetch.  Second part: every call
carrying a cipher parameter at all either satisfies that released-first
equality or fails before any resolution, with the context still holding its
owned reference and every cipher reference count unchanged. -/
theorem cmac_set_cipher_releases_previous_fetch :
    (∀ (r : Bool) (w : World) (m : cmac_data_st) (p : SetParams) (algoname : String),
      p.cipher = some (ParamData.utf8 algoname) →
      (p.properties = none ∨ ∃ s, p.properties = some (ParamData.utf8 s)) →
      (r = true ∨ p.engine = none ∨
        ∃ eid e, p.engine = some (ParamData.utf8 eid) ∧ w.engineReg eid = some e) →
      cmac_set_ctx_params r w m p
        = cmac_set_ctx_params r (EVP_CIPHER_meth_free w m.alloc_cipher)
            { m with alloc_cipher := none } p) ∧
    (∀ (r : Bool) (w : World) (m : cmac_data_st) (p : SetParams) (pd : ParamData),
      p.cipher = some pd →
      cmac_set_ctx_params r w m p
        = cmac_set_ctx_params r (EVP_CIPHER_meth_free w m.alloc_cipher)
            { m with alloc_cipher := none } p ∨
      ((cmac_set_ctx_params r w m p).1 = false ∧
        (cmac_set_ctx_params r w m p).2.2.alloc_cipher = m.alloc_cipher ∧
        (cmac_set_ctx_params r w m p).2.1.cipherRefs = w.cipherRefs)) := by
  refine ⟨fun r w m p algoname hpc hpp hreach =>
    cmac_set_release_decomposition r w m p algoname hpc hpp hreach, ?_⟩
  intro r w m p pd hpc
  rcases pd with algoname | bs
  · rcases p with ⟨pc, pe, pp, pk⟩
    dsimp only at hpc
    subst hpc
    rcases pp with _ | pd2
    · -- properties absent
      cases r
      · rcases pe with _ | pe2
        · exact Or.inl (cmac_set_release_decomposition false w m _ algoname rfl
            (Or.inl rfl) (Or.inr (Or.inl rfl)))
        · rcases pe2 with eid | bs3
          · rcases hreg : w.engineReg eid with _ | e
            · right
              rcases m with ⟨pv, mctx, mtmp, malloc, meng⟩
              rcases w with ⟨fr, lr, er, cr, enr⟩
              dsimp only at hreg
              cases meng <;> refine ⟨?_, ?_, ?_⟩ <;>
                simp only [cmac_set_ctx_params, cmac_set_cipher_part,
                  ENGINE_finish, ENGINE_by_id, hreg] <;> rfl
            · exact Or.inl (cmac_set_release_decomposition false w m _ algoname rfl
                (Or.inl rfl) (Or.inr (Or.inr ⟨eid, e, rfl, hreg⟩)))
          · right
            rcases m with ⟨pv, mctx, mtmp, malloc, meng⟩
            cases meng <;> exact ⟨rfl, rfl, rfl⟩
      · exact Or.inl (cmac_set_release_decomposition true w m _ algoname rfl
          (Or.inl rfl) (Or.inl rfl))
    · rcases pd2 with s | bs2
      · -- properties present and well-typed
        cases r
        · rcases pe with _ | pe2
          · exact Or.inl (cmac_set_release_decomposition false w m _ algoname rfl
              (Or.inr ⟨s, rfl⟩) (Or.inr (Or.inl rfl)))
          · rcases pe2 with eid | bs3
            · rcases hreg : w.engineReg eid with _ | e
              · right
                rcases m with ⟨pv, mctx, mtmp, malloc, meng⟩
                rcases w with ⟨fr, lr, er, cr, enr⟩
                dsimp only at hreg
                cases meng <;> refine ⟨?_, ?_, ?_⟩ <;>
                  simp only [cmac_set_ctx_params, cmac_set_cipher_part,
                    ENGINE_finish, ENGINE_by_id, hreg] <;> rfl
              · exact Or.inl (cmac_set_release_decomposition false w m _ algoname rfl
                  (Or.inr ⟨s, rfl⟩) (Or.inr (Or.inr ⟨eid, e, rfl, hreg⟩)))
            · right
              rcases m with ⟨pv, mctx, mtmp, malloc, meng⟩
              cases meng <;> exact ⟨rfl, rfl, rfl⟩
        · exact Or.inl (cmac_set_release_decomposition true w m _ algoname rfl
            (Or.inr ⟨s, rfl⟩) (Or.inl rfl))
      · -- properties present but ill-typed: the call aborts before the release
        right
        rcases m with ⟨pv, mctx, mtmp, malloc, meng⟩
        cases r
        · rcases pe with _ | pe2
          · cases meng <;> exact ⟨rfl, rfl, rfl⟩
          · rcases pe2 with eid | bs3
            · rcases hreg : w.engineReg eid with _ | e <;>
                rcases w with ⟨fr, lr, er, cr, enr⟩ <;>
                dsimp only at hreg <;>
                cases meng <;> refine ⟨?_, ?_, ?_⟩ <;>
                  simp only [cmac_set_ctx_params, cmac_set_cipher_part,
                    ENGINE_finish, ENGINE_by_id, hreg] <;> rfl
            · cases meng <;> exact ⟨rfl, rfl, rfl⟩
        · exact ⟨rfl, rfl, rfl⟩
  · -- ill-typed cipher parameter: immediate failure, nothing touched
    right
    rcases p with ⟨pc, pe, pp, pk⟩
    dsimp only at hpc
    subst hpc
    exact ⟨rfl, rfl, rfl⟩

/-- C8 witness: part one applied to a cipher-plus-engine set call whose
engine id resolves (on the context that already owns a fetched cipher and
stages an old engine), and part two applied to a plain cipher-selection
call on the same context. -/
theorem cmac_set_cipher_releases_previous_fetch_witness :
    (cmac_set_ctx_params false demoEngineWorld demoOwned cipherEngineParams
       = cmac_set_ctx_params false
           (EVP_CIPHER_meth_free demoEngineWorld demoOwned.alloc_cipher)
           { demoOwned with alloc_cipher := none } cipherEngineParams) ∧
    (cmac_set_ctx_params false demoWorld demoOwned cipherOnlyParams
       = cmac_set_ctx_params false
           (EVP_CIPHER_meth_free demoWorld demoOwned.alloc_cipher)
           { demoOwned with alloc_cipher := none } cipherOnlyParams ∨
     ((cmac_set_ctx_params false demoWorld demoOwned cipherOnlyParams).1 = false ∧
       (cmac_set_ctx_params false demoWorld demoOwned cipherOnlyParams).2.2.alloc_cipher
         = demoOwned.alloc_cipher ∧
       (cmac_set_ctx_params false demoWorld demoOwned cipherOnlyParams).2.1.cipherRefs
         = demoWorld.cipherRefs)) :=
  ⟨cmac_set_cipher_releases_previous_fetch.1 false demoEngineWorld demoOwned
     cipherEngineParams aesName rfl (Or.inl rfl)
     (Or.inr (Or.inr ⟨engName, 7, rfl, by decide⟩)),
   cmac_set_cipher_releases_previous_fetch.2 false demoWorld demoOwned
     cipherOnlyParams (ParamData.utf8 aesName) rfl⟩
